import Mathlib

/-!
Verification of the Pelco-D protocol engine (`src/lib/pelco/pelco.py`,
class `PelcoDevice`, together with the constants of
`src/lib/pelco/__init__.py`).

The Python code is shallowly embedded:
* byte strings become `List ℕ` (each entry intended to lie in `[0,255]`);
* machine integers become `ℕ` / `ℤ` with explicit `% 256` where the code
  takes a modulus;
* Python floats become `ℚ`; `int(x)` on the non-negative quantities that
  occur here is `⌊x⌋`, and Python's `round(x, d)` (round-half-to-even to
  `d` decimal digits) becomes `pround x d` below, applied to the exact
  rational value;
* functions that may `raise` return an `Option`/sum-like result.

Default configuration values used by the embedding (from
`DEFAULT_CONFIG` and module constants): `sendAddress = 1`,
`maxSpeed = MAX_SPEED = 0x40 = 64`, `EXTENDED_MAX_SPEED = 0xFF = 255`,
`COMMAND_SIZE = 7`, `SYNC_BYTE = 0xFF`, `_max_buffer_size = 256`.
-/

namespace Pelco

/-! ### Rounding: Python `round(x, d)` on exact rationals -/

/-- Round half to even to the nearest integer (Python `round(x)`),
on the exact rational value. -/
def rhe (x : ℚ) : ℤ :=
  let n := ⌊x⌋
  let f := x - n
  if f < 1/2 then n
  else if 1/2 < f then n + 1
  else if n % 2 = 0 then n else n + 1

/-- Python `round(x, d)`: round half to even to `d` decimal digits. -/
def pround (x : ℚ) (d : ℕ) : ℚ := (rhe (x * 10 ^ d) : ℚ) / 10 ^ d

theorem rhe_intCast (n : ℤ) : rhe (n : ℚ) = n := by
  unfold rhe
  norm_num

theorem abs_rhe_sub_le (x : ℚ) : |(rhe x : ℚ) - x| ≤ 1/2 := by
  unfold rhe
  have hfl : (⌊x⌋ : ℚ) ≤ x := Int.floor_le x
  have hfu : x < ⌊x⌋ + 1 := Int.lt_floor_add_one x
  by_cases h1 : x - ⌊x⌋ < 1/2
  · rw [if_pos h1, abs_le]
    constructor <;> linarith
  · rw [if_neg h1]
    by_cases h2 : 1/2 < x - ⌊x⌋
    · rw [if_pos h2]
      rw [abs_le]
      push_cast
      constructor <;> linarith
    · rw [if_neg h2]
      have h3 : x - ⌊x⌋ = 1/2 := by linarith
      by_cases h4 : ⌊x⌋ % 2 = 0
      · rw [if_pos h4, abs_le]
        constructor <;> linarith
      · rw [if_neg h4, abs_le]
        push_cast
        constructor <;> linarith

theorem pround_eq_self (x : ℚ) (d : ℕ) (n : ℤ) (h : x * 10 ^ d = (n : ℚ)) :
    pround x d = x := by
  have hd : ((10 : ℚ) ^ d) ≠ 0 := by positivity
  unfold pround
  rw [h, rhe_intCast]
  field_simp at h ⊢
  linarith [h]

theorem abs_pround_sub_le (x : ℚ) (d : ℕ) :
    |pround x d - x| ≤ 1 / (2 * 10 ^ d) := by
  have hd : (0 : ℚ) < 10 ^ d := by positivity
  have h := abs_rhe_sub_le (x * 10 ^ d)
  unfold pround
  have heq : (rhe (x * 10 ^ d) : ℚ) / 10 ^ d - x
      = ((rhe (x * 10 ^ d) : ℚ) - x * 10 ^ d) / 10 ^ d := by
    field_simp
    ring
  rw [heq, abs_div, abs_of_pos hd, div_le_div_iff₀ hd (by positivity)]
  calc |(rhe (x * 10 ^ d) : ℚ) - x * 10 ^ d| * (2 * 10 ^ d)
      ≤ (1/2) * (2 * 10 ^ d) := by
        apply mul_le_mul_of_nonneg_right h (by positivity)
    _ = 1 * 10 ^ d := by ring

/-! ### Packet codec

`PelcoDevice._command` (pelco.py lines 628-632): build the 7-byte packet
`[SYNC, addr, cmd1, cmd2, data1, data2, checksum]` with the checksum the
sum of the five preceding bytes mod 0x100. -/

def command (sendAddress cmd1 cmd2 data1 data2 : ℕ) : List ℕ :=
  let packet := [sendAddress, cmd1, cmd2, data1, data2]
  let packet := packet ++ [packet.sum % 256]
  255 :: packet

/-- The guard tested for each candidate start index `i` by
`PelcoDevice._find_packet` (lines 129-143): the window fits in the
buffer, starts with the 0xFF sync byte, and its 7th byte equals the sum
of the five bytes in between, mod 0x100. -/
def windowOk (data : List ℕ) (i : ℕ) : Bool :=
  decide (i + 7 ≤ data.length) && (data.getD i 0 == 255)
    && (data.getD (i + 6) 0 == ((data.drop (i + 1)).take 5).sum % 256)

/-- The scanning loop of `_find_packet`: try indices `i, i+1, ...`;
`fuel` bounds the number of indices tried (`_find_packet` iterates over
`range(len(data))`, so `fuel = data.length` is exact). -/
def scanFrom (data : List ℕ) : ℕ → ℕ → Option ℕ
  | _, 0 => none
  | i, fuel + 1 => if windowOk data i then some i else scanFrom data (i + 1) fuel

def findMatchIdx (data : List ℕ) : Option ℕ := scanFrom data 0 data.length

/-- `PelcoDevice._find_packet`: the matched 7-byte window plus its
`(start, end)` index pair, or `None`. -/
def findPacket (data : List ℕ) : Option (List ℕ × ℕ × ℕ) :=
  match findMatchIdx data with
  | none => none
  | some i => some ((data.drop i).take 7, i, i + 7)

/-- The field extraction performed at the top of `PelcoDevice._parse`
(lines 354-355): `addr, c1, c2, d1, d2 = packet[1], ..., packet[5]`. -/
def parseFields (packet : List ℕ) : ℕ × ℕ × ℕ × ℕ × ℕ :=
  (packet.getD 1 0, packet.getD 2 0, packet.getD 3 0, packet.getD 4 0,
    packet.getD 5 0)

/-! ### Parsed messages (`_parse`, pelco.py lines 350-445)

`_parse` returns Python dicts `{'success': True, 'data': ...}` or the
`error(...)` dict of `__init__.py`; `data` is a dict tagged by `type`
(`STP`/`STD`/`EXT`/`ALT`) except for the query-response branches, which
return `success(number)` directly. Error codes: `ERR_BAD_VALUE = -2`,
`ERR_BAD_PAN = -3`, `ERR_BAD_TILT = -4`. -/

inductive PMessage where
  | okStop (addr : ℕ)
  | okStandard (addr : ℕ) (cmd : String) (panSpeed tiltSpeed : ℚ)
  | okExtended (addr : ℕ) (c1Scaled : ℚ) (id : ℕ) (value : ℚ)
  | okAlternate (addr c1 c2 d1 d2 : ℕ)
  | okNum (value : ℚ)
  | errResult (code : ℤ) (data : Option ℚ)
deriving DecidableEq

/-- `True` exactly when the Python dict has `'success': True`. -/
def PMessage.isSuccess : PMessage → Bool
  | errResult _ _ => false
  | _ => true

def ERR_BAD_VALUE : ℤ := -2
def ERR_BAD_PAN : ℤ := -3
def ERR_BAD_TILT : ℤ := -4

/-- The `cmd_string` accumulation of `_parse`'s standard branch
(lines 364-390): each `let` is one of the Python `if` statements, in
source order, appending a direction letter to the running string. -/
def cmdStringSeq (c1 c2 : ℕ) : String :=
  let s := ""
  let s := if c1 &&& 4 ≠ 0 then s ++ "C" else if c1 &&& 2 ≠ 0 then s ++ "O" else s
  let s := if c1 &&& 1 ≠ 0 then s ++ "N" else if c2 &&& 128 ≠ 0 then s ++ "F" else s
  let s := if c2 &&& 64 ≠ 0 then s ++ "W" else if c2 &&& 32 ≠ 0 then s ++ "T" else s
  let s := if c2 &&& 16 ≠ 0 then s ++ "D" else s
  let s := if c2 &&& 8 ≠ 0 then s ++ "U" else s
  let s := if c2 &&& 4 ≠ 0 then s ++ "L" else s
  let s := if c2 &&& 2 ≠ 0 then s ++ "R" else s
  s

/-- The standard-command branch of `_parse` (lines 363-401), with the
default `_max_speed = 64`.  The Python code mutates `pan_speed` and
`tilt_speed` through a sequence of `if` statements; each speed `let`
below is one of those statements, in source order. -/
def parseStandard (addr c1 c2 d1 d2 : ℕ) : PMessage :=
  let s := cmdStringSeq c1 c2
  let tiltSpeed : ℚ := if c2 &&& 16 ≠ 0 then pround ((d2 : ℚ) / 64) 4 else 0
  let tiltSpeed : ℚ := if c2 &&& 8 ≠ 0 then pround ((d2 : ℚ) / 64) 4 else tiltSpeed
  let panSpeed : ℚ := if c2 &&& 4 ≠ 0 then pround ((d1 : ℚ) / 64) 4 else 0
  let panSpeed : ℚ := if c2 &&& 2 ≠ 0 then pround ((d1 : ℚ) / 64) 4 else panSpeed
  if 1 < tiltSpeed then PMessage.errResult ERR_BAD_TILT (some tiltSpeed)
  else if 1 < panSpeed then PMessage.errResult ERR_BAD_PAN (some panSpeed)
  else PMessage.okStandard addr s panSpeed tiltSpeed

/-- The `data` dict built for non-returning extended branches
(line 439): `c1` is scaled by `EXTENDED_MAX_SPEED = 0xFF`. -/
def extData (addr c1 c2 : ℕ) (value : ℚ) : PMessage :=
  PMessage.okExtended addr (pround ((c1 : ℚ) / 255) 4 * 100) c2 value

/-- The extended-command branch of `_parse` (lines 404-439).  Opcodes:
`SET_AUX 0x09`, `CLEAR_AUX 0x0B`, `CLEAR_PRESET 0x05`, `SET_PRESET
0x03`, `CALL_PRESET 0x07`, `QUERY_PAN_RESPONSE 0x59`,
`QUERY_TILT_RESPONSE 0x5B`, `QUERY_ZOOM_RESPONSE 0x5D`,
`QUERY_MAGNIFICATION_RESPONSE 0x63`, `SET_PAN 0x4B`, `SET_TILT 0x4D`,
`SET_ZOOM 0x4F`.  `int.from_bytes([d1, d2], 'big')` is `d1 * 256 + d2`. -/
def parseExtended (addr c1 c2 d1 d2 : ℕ) : PMessage :=
  let w : ℕ := d1 * 256 + d2
  if c2 = 0x09 ∨ c2 = 0x0B ∨ c2 = 0x05 ∨ c2 = 0x03 ∨ c2 = 0x07 then
    extData addr c1 c2 (d2 : ℚ)
  else if c2 = 0x59 then
    PMessage.okNum (pround ((w : ℚ) / 100) 2)
  else if c2 = 0x5B then
    let tilt : ℚ := (w : ℚ) / 100
    if 0 ≤ tilt ∧ tilt ≤ 90 then PMessage.okNum (pround (-tilt) 2)
    else if 270 ≤ tilt ∧ tilt ≤ 360 then PMessage.okNum (pround (360 - tilt) 2)
    else PMessage.errResult ERR_BAD_VALUE none
  else if c2 = 0x5D ∨ c2 = 0x63 then
    PMessage.okNum (pround ((w : ℚ) / 65535 * 100) 2)
  else if c2 = 0x4B then
    extData addr c1 c2 ((w : ℚ) / 100)
  else if c2 = 0x4D then
    let v : ℚ := (w : ℚ) / 100
    let v := if 0 ≤ v ∧ v ≤ 90 then -v
             else if 270 ≤ v ∧ v ≤ 360 then 360 - v
             else v
    extData addr c1 c2 v
  else if c2 = 0x4F then
    extData addr c1 c2 (pround ((w : ℚ) / 65535) 2 * 100)
  else
    extData addr c1 c2 (pround ((w : ℚ) / 65535) 2 * 100)

/-- `PelcoDevice._parse` (non-raw model): dispatch on the five raw
fields.  The branch guards are, in source order: all of `c1,c2,d1,d2`
zero → STOP; `c1 <= 4 and c2 % 2 == 0` → standard; `c2 % 2 == 1` →
extended; otherwise → alternate (raw fields passed through). -/
def parse (packet : List ℕ) : PMessage :=
  let addr := packet.getD 1 0
  let c1 := packet.getD 2 0
  let c2 := packet.getD 3 0
  let d1 := packet.getD 4 0
  let d2 := packet.getD 5 0
  if c1 + c2 + d1 + d2 = 0 then PMessage.okStop addr
  else if c1 ≤ 4 ∧ c2 % 2 = 0 then parseStandard addr c1 c2 d1 d2
  else if c2 % 2 = 1 then parseExtended addr c1 c2 d1 d2
  else PMessage.okAlternate addr c1 c2 d1 d2

/-! ### Framer (`PelcoDevice.ingest`, lines 314-348)

`ingest` appends to `_buffer`, truncates the buffer with the slice
`self._buffer[len(self._buffer) - self._max_buffer_size:]` (line 322,
with `_max_buffer_size = 256`), repeatedly extracts packets found by
`_find_packet` (each extraction consumes the buffer through the end of
the matched window and appends `_parse` of the window), and finally
discards leading garbage before the next 0xFF.  `normalIdle` models the
early-return guard `mode == NORMAL and len(_command_queue) == 0`, which
clears the buffer and returns no messages.  The extraction loop is
modelled with `fuel` iterations; every iteration consumes at least 7
bytes, so `fuel = length of the buffer` is always enough.

Note the slice start `len - 256` is NEGATIVE whenever the buffer holds
fewer than 256 bytes, and Python then counts it from the END of the
buffer: for `128 ≤ len < 256` the slice keeps only the last
`256 - len` bytes, and only for `len ≤ 128` (or `len ≥ 256`, keeping
the last 256) does it behave as a plain front-truncation.
`pySliceFrom` reproduces this Python semantics exactly. -/

/-- Python `s[k:]` for an `int` index `k` that may be negative: a
non-negative `k` drops the first `k` elements; a negative `k` counts
from the end (`len + k`), clamped to the start of the list. -/
def pySliceFrom (l : List ℕ) (k : ℤ) : List ℕ :=
  if 0 ≤ k then l.drop k.toNat
  else l.drop (l.length - (-k).toNat)

def ingestScanF : ℕ → List ℕ → List PMessage × List ℕ
  | 0, buffer => ([], buffer)
  | fuel + 1, buffer =>
    match findMatchIdx buffer with
    | none => ([], buffer)
    | some i =>
      let res := ingestScanF fuel (buffer.drop (i + 7))
      (parse ((buffer.drop i).take 7) :: res.1, res.2)

def ingest (normalIdle : Bool) (buffer data : List ℕ) :
    List PMessage × List ℕ :=
  if normalIdle then ([], [])
  else
    let b := buffer ++ data
    let b := pySliceFrom b ((b.length : ℤ) - 256)
    let res := ingestScanF b.length b
    (res.1, res.2.dropWhile (fun x => x != 255))

/-! ### Correlator callback queue

`_get_response` (line 645) registers `self._callback_queue.insert(0,
callback)`; `_respond` (lines 260-262) resolves `callback =
self._callback_queue.pop(); callback(response)` when the queue is
non-empty.  Callbacks are modelled by identifying tags. -/

def registerCallback (q : List ℕ) (cb : ℕ) : List ℕ := cb :: q

/-- One response resolution: the callback invoked (if any) and the
remaining queue.  Python `list.pop()` removes the LAST element. -/
def respondCallback (q : List ℕ) : Option ℕ × List ℕ := (q.getLast?, q.dropLast)

/-! ### Caller-facing setters -/

/-- Outcome of calling a public operation with a given input: the call
may raise an exception, return an error dict, or write an encoded
packet to the port (returning `None` or `success()`). -/
inductive CallOutcome where
  | raisesValueError (msg : String)
  | returnsError (code : ℕ)
  | writesPacket (data : List ℕ)
deriving DecidableEq

/-- `PelcoDevice.set_preset` (lines 470-474): raises `ValueError`
outside `[1,255]`, otherwise writes `_command(0, 0x03, 0, preset_id)`. -/
def set_preset (sendAddress : ℕ) (presetId : ℤ) : CallOutcome :=
  if presetId < 1 ∨ 255 < presetId then
    CallOutcome.raisesValueError "Preset values must be in range 1 to 255"
  else
    CallOutcome.writesPacket (command sendAddress 0 0x03 0 presetId.toNat)

/-- `PelcoDevice.set_auxiliary` (lines 482-486): returns
`error(ERR_INVALID_INPUT_PARAM)` (code `0x09`) outside `[0,255]`,
otherwise writes `_command(0, 0x09, 0, aux_id)`. -/
def set_auxiliary (sendAddress : ℕ) (auxId : ℤ) : CallOutcome :=
  if auxId < 0 ∨ 255 < auxId then
    CallOutcome.returnsError 9
  else
    CallOutcome.writesPacket (command sendAddress 0 0x09 0 auxId.toNat)

/-- `PelcoDevice.tilt_query_response` (lines 522-532): raise outside
`[-90,90]`; wire value `(-t)*100` for `t <= 0`, else `(360-t)*100`,
truncated by `int()` (the operand is non-negative here, so `⌊·⌋`), then
split big-endian into data1/data2. -/
def tilt_query_response (sendAddress : ℕ) (t : ℚ) : Option (List ℕ) :=
  if t < -90 ∨ 90 < t then none
  else
    let tiltVal : ℚ := if t ≤ 0 then -t else 360 - t
    let v : ℕ := (⌊tiltVal * 100⌋).toNat
    some (command sendAddress 0 0x5B (v >>> 8) (v &&& 0xff))

/-- The 16-bit wire value computed by `set_zoom` (line 596):
`int(zoom_pct / 100 * 0xFFFF)` (operand non-negative for
`zoom_pct ∈ [0,100]`). -/
def zoomWire (p : ℚ) : ℕ := (⌊p / 100 * 65535⌋).toNat

/-- `PelcoDevice.set_zoom` (lines 592-598): raise outside `[0,100]`,
otherwise write `_command(0, SET_ZOOM, v >> 8, v & 0xff)`. -/
def set_zoom (sendAddress : ℕ) (p : ℚ) : Option (List ℕ) :=
  if p < 0 ∨ 100 < p then none
  else some (command sendAddress 0 0x4F (zoomWire p >>> 8) (zoomWire p &&& 0xff))

theorem command_eq (a c1 c2 d1 d2 : ℕ) :
    command a c1 c2 d1 d2
      = [255, a, c1, c2, d1, d2, (a + c1 + c2 + d1 + d2) % 256] := by
  simp only [command, List.sum_cons, List.sum_nil, List.cons_append,
    List.nil_append]
  norm_num
  omega

/-! ### Properties of the packet scanner -/

theorem windowOk_le_length {data : List ℕ} {i : ℕ} (h : windowOk data i = true) :
    i + 7 ≤ data.length := by
  simp only [windowOk, Bool.and_eq_true, decide_eq_true_eq] at h
  exact h.1.1

theorem getD_drop (l : List ℕ) (n m : ℕ) :
    (l.drop n).getD m 0 = l.getD (n + m) 0 := by
  simp [List.getD, List.getElem?_drop]

theorem windowOk_drop (data : List ℕ) (m i : ℕ) :
    windowOk (data.drop m) i = windowOk data (m + i) := by
  have h1 : (decide (i + 7 ≤ (data.drop m).length))
      = (decide (m + i + 7 ≤ data.length)) := by
    simp only [List.length_drop]
    by_cases h : i + 7 ≤ data.length - m
    · rw [decide_eq_true h, decide_eq_true (by omega)]
    · rw [decide_eq_false h, decide_eq_false (by omega)]
  have h2 : (data.drop m).getD i 0 = data.getD (m + i) 0 := getD_drop data m i
  have h3 : (data.drop m).getD (i + 6) 0 = data.getD (m + i + 6) 0 := by
    rw [getD_drop]
    congr 1
    try omega
  have h4 : ((data.drop m).drop (i + 1)).take 5 = (data.drop (m + i + 1)).take 5 := by
    rw [List.drop_drop]
    congr 1
    try omega
  simp only [windowOk, h1, h2, h3, h4]

theorem scanFrom_eq_some_iff (data : List ℕ) (fuel i j : ℕ) :
    scanFrom data i fuel = some j ↔
      i ≤ j ∧ j < i + fuel ∧ windowOk data j = true ∧
        ∀ k, i ≤ k → k < j → windowOk data k = false := by
  induction fuel generalizing i with
  | zero =>
    constructor
    · intro h
      exact absurd h (by simp [scanFrom])
    · rintro ⟨h1, h2, -⟩
      omega
  | succ n ih =>
    simp only [scanFrom]
    by_cases h : windowOk data i
    · rw [if_pos h]
      simp only [Option.some.injEq]
      constructor
      · rintro rfl
        exact ⟨le_refl _, by omega, h, fun k hk1 hk2 => absurd hk1 (by omega)⟩
      · rintro ⟨h1, _, h3, h4⟩
        by_contra hne
        have hij : i < j := lt_of_le_of_ne h1 hne
        have := h4 i (le_refl _) hij
        rw [h] at this
        exact absurd this (by simp)
    · rw [if_neg h]
      rw [ih (i + 1)]
      have hfalse : windowOk data i = false := by
        revert h
        cases windowOk data i <;> simp
      constructor
      · rintro ⟨h1, h2, h3, h4⟩
        refine ⟨by omega, by omega, h3, fun k hk1 hk2 => ?_⟩
        by_cases hk : k = i
        · rw [hk]; exact hfalse
        · exact h4 k (by omega) hk2
      · rintro ⟨h1, h2, h3, h4⟩
        have hij : i ≠ j := by
          intro e
          rw [← e] at h3
          rw [hfalse] at h3
          exact absurd h3 (by simp)
        refine ⟨by omega, by omega, h3, fun k hk1 hk2 => h4 k (by omega) hk2⟩

theorem scanFrom_eq_none_iff (data : List ℕ) (fuel i : ℕ) :
    scanFrom data i fuel = none ↔
      ∀ k, i ≤ k → k < i + fuel → windowOk data k = false := by
  induction fuel generalizing i with
  | zero =>
    constructor
    · intro _ k hk1 hk2
      omega
    · intro _
      rfl
  | succ n ih =>
    simp only [scanFrom]
    by_cases h : windowOk data i
    · rw [if_pos h]
      constructor
      · intro hc
        exact absurd hc (by simp)
      · intro hall
        have := hall i (le_refl _) (by omega)
        rw [h] at this
        exact absurd this (by simp)
    · rw [if_neg h]
      rw [ih (i + 1)]
      have hfalse : windowOk data i = false := by
        revert h
        cases windowOk data i <;> simp
      constructor
      · intro hall k hk1 hk2
        by_cases hk : k = i
        · rw [hk]; exact hfalse
        · exact hall k (by omega) (by omega)
      · intro hall k hk1 hk2
        exact hall k (by omega) (by omega)

theorem findMatchIdx_eq_some (data : List ℕ) (j : ℕ)
    (h1 : windowOk data j = true)
    (h2 : ∀ k, k < j → windowOk data k = false) :
    findMatchIdx data = some j := by
  rw [findMatchIdx, scanFrom_eq_some_iff]
  have := windowOk_le_length h1
  exact ⟨Nat.zero_le _, by omega, h1, fun k _ hk => h2 k hk⟩

theorem findMatchIdx_eq_none (data : List ℕ)
    (h : ∀ k, windowOk data k = false) :
    findMatchIdx data = none := by
  rw [findMatchIdx, scanFrom_eq_none_iff]
  intro k _ _
  exact h k

theorem ingestScanF_nil (fuel : ℕ) : ingestScanF fuel [] = ([], []) := by
  cases fuel with
  | zero => rfl
  | succ n => rfl

theorem ingestScanF_step (fuel : ℕ) (b : List ℕ) (i : ℕ)
    (h : findMatchIdx b = some i) :
    ingestScanF (fuel + 1) b
      = (parse ((b.drop i).take 7) :: (ingestScanF fuel (b.drop (i + 7))).1,
          (ingestScanF fuel (b.drop (i + 7))).2) := by
  simp [ingestScanF, h]

theorem ingestScanF_none (fuel : ℕ) (b : List ℕ)
    (h : findMatchIdx b = none) :
    ingestScanF fuel b = ([], b) := by
  cases fuel with
  | zero => rfl
  | succ n => simp [ingestScanF, h]

theorem ingestScanF_suffix (fuel : ℕ) (b : List ℕ) :
    List.IsSuffix (ingestScanF fuel b).2 b := by
  induction fuel generalizing b with
  | zero => exact List.suffix_refl b
  | succ n ih =>
    cases hf : findMatchIdx b with
    | none =>
      rw [ingestScanF_none _ _ hf]
    | some i =>
      rw [ingestScanF_step _ _ _ hf]
      exact (ih (b.drop (i + 7))).trans (List.drop_suffix _ _)

theorem windowOk_false_of_lt {data : List ℕ} {i : ℕ}
    (h : data.length < i + 7) : windowOk data i = false := by
  simp only [windowOk]
  rw [decide_eq_false (by omega)]
  simp

/-! ### Parse path lemmas -/

theorem parse_command_standard (addr c1 c2 d1 d2 : ℕ)
    (h1 : c1 ≤ 4) (h2 : c2 % 2 = 0)
    (hnz : ¬(c1 = 0 ∧ c2 = 0 ∧ d1 = 0 ∧ d2 = 0)) :
    parse (command addr c1 c2 d1 d2) = parseStandard addr c1 c2 d1 d2 := by
  rw [command_eq]
  show (if c1 + c2 + d1 + d2 = 0 then PMessage.okStop addr
    else if c1 ≤ 4 ∧ c2 % 2 = 0 then parseStandard addr c1 c2 d1 d2
    else if c2 % 2 = 1 then parseExtended addr c1 c2 d1 d2
    else PMessage.okAlternate addr c1 c2 d1 d2) = parseStandard addr c1 c2 d1 d2
  rw [if_neg (by omega), if_pos ⟨h1, h2⟩]

theorem parse_command_extended (addr c1 c2 d1 d2 : ℕ) (hodd : c2 % 2 = 1) :
    parse (command addr c1 c2 d1 d2) = parseExtended addr c1 c2 d1 d2 := by
  rw [command_eq]
  show (if c1 + c2 + d1 + d2 = 0 then PMessage.okStop addr
    else if c1 ≤ 4 ∧ c2 % 2 = 0 then parseStandard addr c1 c2 d1 d2
    else if c2 % 2 = 1 then parseExtended addr c1 c2 d1 d2
    else PMessage.okAlternate addr c1 c2 d1 d2) = parseExtended addr c1 c2 d1 d2
  rw [if_neg (by omega), if_neg (by omega), if_pos hodd]

/-! ### Concrete parse evaluations used in several claims -/

theorem pround_zero (d : ℕ) : pround 0 d = 0 := by
  have := pround_eq_self (0:ℚ) d 0 (by norm_num)
  simpa using this

theorem parse_std_example :
    parse [255, 1, 0, 2, 32, 0, 35] = PMessage.okStandard 1 "R" (1/2) 0 := by
  have hcmd : command 1 0 2 32 0 = [255, 1, 0, 2, 32, 0, 35] := by decide
  rw [← hcmd, parse_command_standard 1 0 2 32 0 (by omega) (by omega) (by simp)]
  have hpA : pround ((32:ℚ)/64) 4 = 1/2 := by
    rw [show ((32:ℚ)/64) = 1/2 by norm_num]
    exact pround_eq_self _ 4 5000 (by norm_num)
  have hpB : pround ((1:ℚ)/2) 4 = 1/2 := pround_eq_self _ 4 5000 (by norm_num)
  simp only [parseStandard, cmdStringSeq]
  norm_num [show (0 &&& 4 : ℕ) = 0 from rfl, show (0 &&& 2 : ℕ) = 0 from rfl,
    show (0 &&& 1 : ℕ) = 0 from rfl, show (2 &&& 128 : ℕ) = 0 from rfl,
    show (2 &&& 64 : ℕ) = 0 from rfl, show (2 &&& 32 : ℕ) = 0 from rfl,
    show (2 &&& 16 : ℕ) = 0 from rfl, show (2 &&& 8 : ℕ) = 0 from rfl,
    show (2 &&& 4 : ℕ) = 0 from rfl, show (2 &&& 2 : ℕ) = 2 from rfl,
    hpA, hpB, pround_zero]

theorem parse_stop_example :
    parse [255, 255, 0, 0, 0, 0, 255] = PMessage.okStop 255 := rfl

theorem parse_std_example2 :
    parse [255, 0, 2, 0, 0, 0, 2] = PMessage.okStandard 0 "O" 0 0 := by
  have hcmd : command 0 2 0 0 0 = [255, 0, 2, 0, 0, 0, 2] := by decide
  rw [← hcmd, parse_command_standard 0 2 0 0 0 (by omega) (by omega) (by simp)]
  simp only [parseStandard, cmdStringSeq]
  norm_num [show (2 &&& 4 : ℕ) = 0 from rfl, show (2 &&& 2 : ℕ) = 2 from rfl,
    show (2 &&& 1 : ℕ) = 0 from rfl, show (0 &&& 128 : ℕ) = 0 from rfl,
    show (0 &&& 64 : ℕ) = 0 from rfl, show (0 &&& 32 : ℕ) = 0 from rfl,
    show (0 &&& 16 : ℕ) = 0 from rfl, show (0 &&& 8 : ℕ) = 0 from rfl,
    show (0 &&& 4 : ℕ) = 0 from rfl, show (0 &&& 2 : ℕ) = 0 from rfl,
    pround_zero]

/-! ### C1 -/

/-- C1: for all five byte-valued fields, `_command` produces exactly 7
bytes, the first being the 0xFF sync byte and the last the additive
checksum mod 256, and running `_find_packet` on those bytes matches the
whole packet at indices `(0, 7)`, after which the field extraction of
`_parse` recovers the same `address`, `cmd1`, `cmd2`, `data1`, `data2`. -/
theorem pelco_C1_encode_decode (a c1 c2 d1 d2 : ℕ)
    (ha : a < 256) (h1 : c1 < 256) (h2 : c2 < 256)
    (h3 : d1 < 256) (h4 : d2 < 256) :
    (command a c1 c2 d1 d2).length = 7 ∧
    (command a c1 c2 d1 d2).getD 0 0 = 255 ∧
    (command a c1 c2 d1 d2).getD 6 0 = (a + c1 + c2 + d1 + d2) % 256 ∧
    findPacket (command a c1 c2 d1 d2) = some (command a c1 c2 d1 d2, 0, 7) ∧
    parseFields (command a c1 c2 d1 d2) = (a, c1, c2, d1, d2) := by
  rw [command_eq]
  have hw : windowOk [255, a, c1, c2, d1, d2, (a + c1 + c2 + d1 + d2) % 256] 0
      = true := by
    simp [windowOk]
    omega
  have hfind : findMatchIdx [255, a, c1, c2, d1, d2, (a + c1 + c2 + d1 + d2) % 256]
      = some 0 := by
    rw [findMatchIdx]
    show scanFrom _ 0 7 = some 0
    rw [show (7:ℕ) = 6 + 1 from rfl, scanFrom, if_pos hw]
  refine ⟨rfl, rfl, rfl, ?_, rfl⟩
  rw [findPacket, hfind]
  exact rfl

/-- Witness for C1 at `(address, cmd1, cmd2, data1, data2) = (1, 0, 2, 32, 0)`. -/
theorem pelco_C1_encode_decode_witness :
    (command 1 0 2 32 0).length = 7 ∧
    (command 1 0 2 32 0).getD 0 0 = 255 ∧
    (command 1 0 2 32 0).getD 6 0 = (1 + 0 + 2 + 32 + 0) % 256 ∧
    findPacket (command 1 0 2 32 0) = some (command 1 0 2 32 0, 0, 7) ∧
    parseFields (command 1 0 2 32 0) = (1, 0, 2, 32, 0) :=
  pelco_C1_encode_decode 1 0 2 32 0 (by decide) (by decide) (by decide)
    (by decide) (by decide)

/-! ### C2 -/

/-- C2 counterexample: register callback `1`, then callback `2`; the
next resolved response is delivered to callback `1` — the one
registered FIRST, not last.  (`_get_response` inserts at the front of
`_callback_queue`, `_respond` pops from the back, so the discipline is
FIFO, not the claimed LIFO.) -/
theorem pelco_C2_counterexample :
    (respondCallback (registerCallback (registerCallback [] 1) 2)).1 = some 1 ∧
    (respondCallback (registerCallback (registerCallback [] 1) 2)).1 ≠ some 2 := by
  decide

/-- C2 amended: callback resolution is first-registered-first (FIFO).
Registering any sequence of callbacks on an empty correlator and
resolving one response invokes the EARLIEST-registered callback,
leaving a queue equal to registering the remaining callbacks in order. -/
theorem pelco_C2_fifo (regs : List ℕ) :
    respondCallback (regs.foldl registerCallback [])
      = (regs.head?, regs.tail.foldl registerCallback []) := by
  have hfold : ∀ (l acc : List ℕ),
      l.foldl registerCallback acc = l.reverse ++ acc := by
    intro l
    induction l with
    | nil => intro acc; simp
    | cons a t ih =>
      intro acc
      simp only [List.foldl_cons, List.reverse_cons, registerCallback, ih,
        List.append_assoc, List.singleton_append]
  cases regs with
  | nil => rfl
  | cons a t =>
    rw [hfold]
    simp only [List.reverse_cons, List.append_nil, respondCallback,
      List.getLast?_concat, List.dropLast_concat, List.head?_cons,
      List.tail_cons, hfold]

/-! ### C9 -/

set_option maxRecDepth 4000 in
/-- C9: after any single `ingest` call — hence, inductively, after any
sequence of them — the retained buffer holds at most
`_max_buffer_size = 256` bytes, and is a suffix of the previous buffer
followed by the new data (bytes are only ever dropped from the front). -/
theorem pelco_C9_buffer_bound (normalIdle : Bool) (buffer data : List ℕ) :
    (ingest normalIdle buffer data).2.length ≤ 256 ∧
    List.IsSuffix (ingest normalIdle buffer data).2 (buffer ++ data) := by
  cases normalIdle with
  | true =>
    refine ⟨by simp [ingest], ?_⟩
    show List.IsSuffix ([] : List ℕ) (buffer ++ data)
    exact List.nil_suffix
  | false =>
    have hstep : List.IsSuffix (ingest false buffer data).2
        (pySliceFrom (buffer ++ data) (((buffer ++ data).length : ℤ) - 256)) := by
      show List.IsSuffix
        ((ingestScanF
            (pySliceFrom (buffer ++ data)
              (((buffer ++ data).length : ℤ) - 256)).length
            (pySliceFrom (buffer ++ data)
              (((buffer ++ data).length : ℤ) - 256))).2.dropWhile
          (fun x => x != 255))
        (pySliceFrom (buffer ++ data) (((buffer ++ data).length : ℤ) - 256))
      exact (List.dropWhile_suffix _).trans (ingestScanF_suffix _ _)
    have htr : (pySliceFrom (buffer ++ data)
          (((buffer ++ data).length : ℤ) - 256)).length ≤ 256 ∧
        List.IsSuffix
          (pySliceFrom (buffer ++ data) (((buffer ++ data).length : ℤ) - 256))
          (buffer ++ data) := by
      unfold pySliceFrom
      by_cases hc : (0:ℤ) ≤ ((buffer ++ data).length : ℤ) - 256
      · rw [if_pos hc]
        exact ⟨by rw [List.length_drop]; omega, List.drop_suffix _ _⟩
      · rw [if_neg hc]
        exact ⟨by rw [List.length_drop]; omega, List.drop_suffix _ _⟩
    exact ⟨le_trans hstep.length_le htr.1, hstep.trans htr.2⟩

/-! ### Arithmetic bridges between the ℚ guards of `_parse` and wire
values -/

theorem pround_div100 (w : ℕ) : pround ((w:ℚ)/100) 2 = (w:ℚ)/100 := by
  apply pround_eq_self _ 2 (w : ℤ)
  push_cast
  rw [show ((10:ℚ)^2) = 100 by norm_num]
  field_simp

theorem pround_neg_div100 (w : ℕ) :
    pround (-((w:ℚ)/100)) 2 = -((w:ℚ)/100) := by
  apply pround_eq_self _ 2 (-(w : ℤ))
  push_cast
  rw [show ((10:ℚ)^2) = 100 by norm_num]
  field_simp

theorem pround_360_sub_div100 (w : ℕ) :
    pround (360 - (w:ℚ)/100) 2 = 360 - (w:ℚ)/100 := by
  apply pround_eq_self _ 2 (36000 - (w : ℤ))
  push_cast
  rw [show ((10:ℚ)^2) = 100 by norm_num]
  field_simp
  ring

theorem qdiv100_cond1 (w : ℕ) :
    ((0:ℚ) ≤ (w:ℚ)/100 ∧ (w:ℚ)/100 ≤ 90) ↔ w ≤ 9000 := by
  have h0 : (0:ℚ) ≤ (w:ℚ)/100 := by positivity
  rw [and_iff_right h0, div_le_iff₀ (by norm_num : (0:ℚ) < 100)]
  constructor
  · intro h
    exact_mod_cast h
  · intro h
    exact_mod_cast h

theorem qdiv100_cond2 (w : ℕ) :
    ((270:ℚ) ≤ (w:ℚ)/100 ∧ (w:ℚ)/100 ≤ 360) ↔
      (27000 ≤ w ∧ w ≤ 36000) := by
  rw [le_div_iff₀ (by norm_num : (0:ℚ) < 100),
    div_le_iff₀ (by norm_num : (0:ℚ) < 100)]
  constructor
  · rintro ⟨hl, hr⟩
    exact ⟨by exact_mod_cast hl, by exact_mod_cast hr⟩
  · rintro ⟨hl, hr⟩
    exact ⟨by exact_mod_cast hl, by exact_mod_cast hr⟩

/-! ### Extended-branch evaluation lemmas -/

theorem parseExtended_0x59 (addr c1 d1 d2 : ℕ) :
    parseExtended addr c1 89 d1 d2
      = PMessage.okNum (pround (((d1 * 256 + d2 : ℕ) : ℚ) / 100) 2) := by
  simp only [parseExtended]
  rw [if_neg (by norm_num), if_pos (by trivial)]

theorem parseExtended_0x5B (addr c1 d1 d2 : ℕ) :
    parseExtended addr c1 91 d1 d2
      = (if d1 * 256 + d2 ≤ 9000 then
           PMessage.okNum (-(((d1 * 256 + d2 : ℕ) : ℚ) / 100))
         else if 27000 ≤ d1 * 256 + d2 ∧ d1 * 256 + d2 ≤ 36000 then
           PMessage.okNum (360 - ((d1 * 256 + d2 : ℕ) : ℚ) / 100)
         else PMessage.errResult ERR_BAD_VALUE none) := by
  simp only [parseExtended]
  rw [if_neg (by norm_num), if_neg (by norm_num), if_pos (by trivial)]
  by_cases hA : d1 * 256 + d2 ≤ 9000
  · rw [if_pos ((qdiv100_cond1 _).mpr hA), if_pos hA, pround_neg_div100]
  · rw [if_neg (fun hc => hA ((qdiv100_cond1 _).mp hc)), if_neg hA]
    by_cases hB : 27000 ≤ d1 * 256 + d2 ∧ d1 * 256 + d2 ≤ 36000
    · rw [if_pos ((qdiv100_cond2 _).mpr hB), if_pos hB, pround_360_sub_div100]
    · rw [if_neg (fun hc => hB ((qdiv100_cond2 _).mp hc)), if_neg hB]

theorem parseExtended_0x4D (addr c1 d1 d2 : ℕ) :
    parseExtended addr c1 77 d1 d2
      = PMessage.okExtended addr (pround ((c1 : ℚ) / 255) 4 * 100) 77
          (if d1 * 256 + d2 ≤ 9000 then -(((d1 * 256 + d2 : ℕ) : ℚ) / 100)
           else if 27000 ≤ d1 * 256 + d2 ∧ d1 * 256 + d2 ≤ 36000 then
             360 - ((d1 * 256 + d2 : ℕ) : ℚ) / 100
           else ((d1 * 256 + d2 : ℕ) : ℚ) / 100) := by
  simp only [parseExtended]
  rw [if_neg (by norm_num), if_neg (by norm_num), if_neg (by norm_num),
    if_neg (by norm_num), if_neg (by norm_num), if_pos (by trivial)]
  by_cases hA : d1 * 256 + d2 ≤ 9000
  · rw [if_pos ((qdiv100_cond1 _).mpr hA), if_pos hA]
    rfl
  · rw [if_neg (fun hc => hA ((qdiv100_cond1 _).mp hc)), if_neg hA]
    by_cases hB : 27000 ≤ d1 * 256 + d2 ∧ d1 * 256 + d2 ≤ 36000
    · rw [if_pos ((qdiv100_cond2 _).mpr hB), if_pos hB]
      rfl
    · rw [if_neg (fun hc => hB ((qdiv100_cond2 _).mp hc)), if_neg hB]
      rfl

/-! ### C10 -/

/-- C10: parsing any valid packet with opcode `QUERY_PAN_RESPONSE`
(0x59) yields `success(round((d1<<8|d2)/100, 2))` with no range
validation: the rounding is exact, and wire values above 36000 decode
to pan angles above 360 degrees yet are still returned as success,
never as an error (unlike the tilt-response path). -/
theorem pelco_C10_pan_response (addr c1 d1 d2 : ℕ)
    (ha : addr < 256) (hc : c1 < 256) (h1 : d1 < 256) (h2 : d2 < 256) :
    parse (command addr c1 0x59 d1 d2)
      = PMessage.okNum (pround (((d1 * 256 + d2 : ℕ) : ℚ) / 100) 2) ∧
    (parse (command addr c1 0x59 d1 d2)).isSuccess = true ∧
    pround (((d1 * 256 + d2 : ℕ) : ℚ) / 100) 2
      = ((d1 * 256 + d2 : ℕ) : ℚ) / 100 ∧
    (36000 < d1 * 256 + d2 →
      360 < pround (((d1 * 256 + d2 : ℕ) : ℚ) / 100) 2) := by
  have hparse := parse_command_extended addr c1 89 d1 d2 (by norm_num)
  rw [hparse, parseExtended_0x59]
  have hid := pround_div100 (d1 * 256 + d2)
  refine ⟨rfl, rfl, hid, ?_⟩
  intro hw
  rw [hid, lt_div_iff₀ (by norm_num : (0:ℚ) < 100)]
  have : (36000:ℚ) < ((d1 * 256 + d2 : ℕ) : ℚ) := by exact_mod_cast hw
  linarith

/-- Witness for C10 at `addr = 1, c1 = 0, d1 = d2 = 255`
(wire value 65535, i.e. a pan "angle" of 655.35 degrees). -/
theorem pelco_C10_pan_response_witness :
    parse (command 1 0 0x59 255 255)
      = PMessage.okNum (pround (((255 * 256 + 255 : ℕ) : ℚ) / 100) 2) ∧
    (parse (command 1 0 0x59 255 255)).isSuccess = true ∧
    pround (((255 * 256 + 255 : ℕ) : ℚ) / 100) 2
      = ((255 * 256 + 255 : ℕ) : ℚ) / 100 ∧
    (36000 < 255 * 256 + 255 →
      360 < pround (((255 * 256 + 255 : ℕ) : ℚ) / 100) 2) :=
  pelco_C10_pan_response 1 0 255 255 (by decide) (by decide) (by decide)
    (by decide)

/-! ### C6 -/

/-- C6 counterexample: the claim asserts that for SET_TILT packets a
wire value outside `[0,9000] ∪ [27000,36000]` yields `Err(BadValue)`;
but `_parse`'s SET_TILT branch has no error case.  Wire value
`10000` (bytes `d1 = 39, d2 = 16`) is outside both ranges, yet the
packet parses as a SUCCESSFUL Extended message with value `100`. -/
theorem pelco_C6_counterexample :
    parse (command 1 0 0x4D 39 16) = PMessage.okExtended 1 0 0x4D 100 ∧
    (parse (command 1 0 0x4D 39 16)).isSuccess = true ∧
    ¬ (39 * 256 + 16 ≤ 9000 ∨
        (27000 ≤ 39 * 256 + 16 ∧ 39 * 256 + 16 ≤ 36000)) := by
  have h := parse_command_extended 1 0 77 39 16 (by norm_num)
  rw [h, parseExtended_0x4D]
  rw [if_neg (by norm_num), if_neg (by norm_num)]
  refine ⟨?_, ?_, by norm_num⟩
  · norm_num [pround_zero]
  · rfl

/-- C6 amended: for QUERY_TILT_RESPONSE (0x5B) packets the claimed
three-way behaviour holds (wire in `[0,9000]` decodes to `-(wire/100)`,
wire in `[27000,36000]` to `360 - wire/100`, anything else to
`Err(BadValue)`); for SET_TILT (0x4D) packets the two in-range
transforms are applied but out-of-range wire values are passed through
unchanged as a SUCCESSFUL Extended value `wire/100`, with no error. -/
theorem pelco_C6_amended (addr c1 d1 d2 : ℕ)
    (ha : addr < 256) (hc : c1 < 256) (h1 : d1 < 256) (h2 : d2 < 256) :
    parse (command addr c1 0x5B d1 d2)
      = (if d1 * 256 + d2 ≤ 9000 then
           PMessage.okNum (-(((d1 * 256 + d2 : ℕ) : ℚ) / 100))
         else if 27000 ≤ d1 * 256 + d2 ∧ d1 * 256 + d2 ≤ 36000 then
           PMessage.okNum (360 - ((d1 * 256 + d2 : ℕ) : ℚ) / 100)
         else PMessage.errResult ERR_BAD_VALUE none) ∧
    parse (command addr c1 0x4D d1 d2)
      = PMessage.okExtended addr (pround ((c1 : ℚ) / 255) 4 * 100) 0x4D
          (if d1 * 256 + d2 ≤ 9000 then -(((d1 * 256 + d2 : ℕ) : ℚ) / 100)
           else if 27000 ≤ d1 * 256 + d2 ∧ d1 * 256 + d2 ≤ 36000 then
             360 - ((d1 * 256 + d2 : ℕ) : ℚ) / 100
           else ((d1 * 256 + d2 : ℕ) : ℚ) / 100) := by
  constructor
  · rw [parse_command_extended addr c1 91 d1 d2 (by norm_num),
      parseExtended_0x5B]
  · rw [parse_command_extended addr c1 77 d1 d2 (by norm_num),
      parseExtended_0x4D]

/-- Witness for C6 (amended) at `addr = 1, c1 = 0, d1 = 123, d2 = 12`
(wire value 31500, inside `[27000,36000]`). -/
theorem pelco_C6_amended_witness :
    parse (command 1 0 0x5B 123 12)
      = (if 123 * 256 + 12 ≤ 9000 then
           PMessage.okNum (-(((123 * 256 + 12 : ℕ) : ℚ) / 100))
         else if 27000 ≤ 123 * 256 + 12 ∧ 123 * 256 + 12 ≤ 36000 then
           PMessage.okNum (360 - ((123 * 256 + 12 : ℕ) : ℚ) / 100)
         else PMessage.errResult ERR_BAD_VALUE none) ∧
    parse (command 1 0 0x4D 123 12)
      = PMessage.okExtended 1 (pround ((0 : ℚ) / 255) 4 * 100) 0x4D
          (if 123 * 256 + 12 ≤ 9000 then -(((123 * 256 + 12 : ℕ) : ℚ) / 100)
           else if 27000 ≤ 123 * 256 + 12 ∧ 123 * 256 + 12 ≤ 36000 then
             360 - ((123 * 256 + 12 : ℕ) : ℚ) / 100
           else ((123 * 256 + 12 : ℕ) : ℚ) / 100) := by
  have h := pelco_C6_amended 1 0 123 12 (by decide) (by decide) (by decide)
    (by decide)
  exact_mod_cast h

theorem bytes_recombine (v : ℕ) : (v >>> 8) * 256 + (v &&& 255) = v := by
  have h255 : (255 : ℕ) = 2 ^ 8 - 1 := by norm_num
  rw [h255, Nat.and_pow_two_sub_one_eq_mod, Nat.shiftRight_eq_div_pow]
  have h256 : (2 : ℕ) ^ 8 = 256 := by norm_num
  rw [h256]
  omega

theorem parseExtended_0x5D (addr c1 d1 d2 : ℕ) :
    parseExtended addr c1 93 d1 d2
      = PMessage.okNum (pround (((d1 * 256 + d2 : ℕ) : ℚ) / 65535 * 100) 2) := by
  simp only [parseExtended]
  rw [if_neg (by norm_num), if_neg (by norm_num), if_neg (by norm_num),
    if_pos (by norm_num)]

theorem parseExtended_0x4F (addr c1 d1 d2 : ℕ) :
    parseExtended addr c1 79 d1 d2
      = PMessage.okExtended addr (pround ((c1 : ℚ) / 255) 4 * 100) 79
          (pround (((d1 * 256 + d2 : ℕ) : ℚ) / 65535) 2 * 100) := by
  simp only [parseExtended]
  rw [if_neg (by norm_num), if_neg (by norm_num), if_neg (by norm_num),
    if_neg (by norm_num), if_neg (by norm_num), if_neg (by norm_num),
    if_pos (by trivial)]
  rfl

/-! ### C3 -/

/-- C3: for every tilt angle `t ∈ [-90,90]`, encoding `t` through
`tilt_query_response` (wire value `(360-t)*100` when `t > 0`, else
`(-t)*100`, truncated, split big-endian into data1/data2) and decoding
the resulting packet through `_parse`'s QUERY_TILT_RESPONSE branch
yields a tilt within 0.01 degrees of `t`. -/
theorem pelco_C3_tilt_roundtrip (t : ℚ) (h1 : -90 ≤ t) (h2 : t ≤ 90) :
    ∃ pkt : List ℕ, ∃ u : ℚ,
      tilt_query_response 1 t = some pkt ∧
      parse pkt = PMessage.okNum u ∧
      |u - t| < 1/100 := by
  have hnot : ¬(t < -90 ∨ 90 < t) := by
    push_neg
    exact ⟨h1, h2⟩
  by_cases ht : t ≤ 0
  · set z : ℤ := ⌊(-t) * 100⌋ with hzdef
    have hz0 : (0:ℤ) ≤ z := Int.floor_nonneg.mpr (by nlinarith)
    have hzle : (z : ℚ) ≤ (-t) * 100 := Int.floor_le _
    have hzgt : (-t) * 100 < (z : ℚ) + 1 := by
      have := Int.lt_floor_add_one ((-t) * 100)
      push_cast at this ⊢
      linarith
    have hz9000 : z ≤ 9000 := by
      have hle : (z : ℚ) ≤ 9000 := by linarith
      exact_mod_cast hle
    have hcast : ((z.toNat : ℕ) : ℚ) = (z : ℚ) := by
      exact_mod_cast congrArg (fun n : ℤ => (n : ℚ)) (Int.toNat_of_nonneg hz0)
    refine ⟨command 1 0 0x5B (z.toNat >>> 8) (z.toNat &&& 0xff),
      -((z.toNat : ℚ) / 100), ?_, ?_, ?_⟩
    · simp only [tilt_query_response]
      rw [if_neg hnot, if_pos ht]
    · rw [parse_command_extended 1 0 91 _ _ (by norm_num), parseExtended_0x5B,
        bytes_recombine]
      rw [if_pos (by omega)]
    · rw [hcast, abs_lt]
      constructor <;> linarith
  · push_neg at ht
    set z : ℤ := ⌊(360 - t) * 100⌋ with hzdef
    have hz27000 : (27000:ℤ) ≤ z := by
      apply Int.le_floor.mpr
      push_cast
      linarith
    have hz0 : (0:ℤ) ≤ z := by omega
    have hzle : (z : ℚ) ≤ (360 - t) * 100 := Int.floor_le _
    have hzgt : (360 - t) * 100 < (z : ℚ) + 1 := by
      have := Int.lt_floor_add_one ((360 - t) * 100)
      push_cast at this ⊢
      linarith
    have hz36000 : z ≤ 35999 := by
      have : z < 36000 := by
        apply Int.floor_lt.mpr
        push_cast
        linarith
      omega
    have hcast : ((z.toNat : ℕ) : ℚ) = (z : ℚ) := by
      exact_mod_cast congrArg (fun n : ℤ => (n : ℚ)) (Int.toNat_of_nonneg hz0)
    refine ⟨command 1 0 0x5B (z.toNat >>> 8) (z.toNat &&& 0xff),
      360 - (z.toNat : ℚ) / 100, ?_, ?_, ?_⟩
    · simp only [tilt_query_response]
      rw [if_neg hnot, if_neg (by linarith)]
    · rw [parse_command_extended 1 0 91 _ _ (by norm_num), parseExtended_0x5B,
        bytes_recombine]
      rw [if_neg (by omega), if_pos (by omega)]
    · rw [hcast, abs_lt]
      constructor <;> linarith

/-- Witness for C3 at `t = 45`: wire value 31500, bytes `0x7B 0x0C`,
decoded back to exactly 45 degrees. -/
theorem pelco_C3_tilt_roundtrip_witness :
    ∃ pkt : List ℕ, ∃ u : ℚ,
      tilt_query_response 1 45 = some pkt ∧
      parse pkt = PMessage.okNum u ∧
      |u - 45| < 1/100 :=
  pelco_C3_tilt_roundtrip 45 (by norm_num) (by norm_num)

/-! ### C7 -/

/-- C7 counterexample: the claim's tolerance `1/65535*100` fails even
through the QUERY_ZOOM_RESPONSE branch, because the decode rounds to 2
decimals.  For `p = 0.0049` the wire value is 3 and the decoded
percentage is `0.00`, an error of `0.0049 > 100/65535 ≈ 0.0015`. -/
theorem pelco_C7_counterexample :
    zoomWire (49/10000) = 3 ∧
    parse (command 1 0 0x5D (zoomWire (49/10000) >>> 8)
        (zoomWire (49/10000) &&& 0xff)) = PMessage.okNum 0 ∧
    ¬ (|(0:ℚ) - 49/10000| ≤ 1/65535 * 100) := by
  have hw : zoomWire (49/10000) = 3 := by
    have hfl : ⌊(49:ℚ)/10000/100*65535⌋ = 3 := by norm_num
    simp only [zoomWire, hfl]
    rfl
  refine ⟨hw, ?_, ?_⟩
  · rw [hw, show (3:ℕ) >>> 8 = 0 from rfl, show (3:ℕ) &&& 0xff = 3 from rfl,
      parse_command_extended 1 0 93 0 3 (by norm_num), parseExtended_0x5D]
    have h3 : pround (((0 * 256 + 3 : ℕ) : ℚ) / 65535 * 100) 2 = 0 := by
      have hx : ((0 * 256 + 3 : ℕ) : ℚ) / 65535 * 100 * 10 ^ 2
          = 2000/4369 := by
        push_cast
        norm_num
      unfold pround rhe
      rw [hx]
      norm_num
    rw [h3]
  · rw [zero_sub, abs_neg, abs_of_nonneg (by norm_num)]
    norm_num

/-- C7 amended: encoding `p ∈ [0,100]` via `set_zoom` and decoding the
data bytes through the QUERY_ZOOM_RESPONSE branch recovers `p` within
`1/200 + 100/65535` (the 1/200 coming from the decoder's rounding to 2
decimal digits); decoding through the SET_ZOOM branch — which rounds
the 16-bit fraction to 2 decimals BEFORE scaling by 100 — recovers `p`
only within `1/2 + 100/65535`. -/
theorem pelco_C7_amended (p : ℚ) (h0 : 0 ≤ p) (h1 : p ≤ 100) :
    set_zoom 1 p = some (command 1 0 0x4F (zoomWire p >>> 8)
        (zoomWire p &&& 0xff)) ∧
    (∃ q : ℚ, parse (command 1 0 0x5D (zoomWire p >>> 8)
          (zoomWire p &&& 0xff)) = PMessage.okNum q ∧
        |q - p| ≤ 1/200 + 100/65535) ∧
    (∃ q : ℚ, parse (command 1 0 0x4F (zoomWire p >>> 8)
          (zoomWire p &&& 0xff)) = PMessage.okExtended 1 0 0x4F q ∧
        |q - p| ≤ 1/2 + 100/65535) := by
  have hnot : ¬(p < 0 ∨ 100 < p) := by
    push_neg
    exact ⟨h0, h1⟩
  set z : ℤ := ⌊p / 100 * 65535⌋ with hzdef
  have hz0 : (0:ℤ) ≤ z := Int.floor_nonneg.mpr (by positivity)
  have hzle : (z : ℚ) ≤ p / 100 * 65535 := Int.floor_le _
  have hzgt : p / 100 * 65535 < (z : ℚ) + 1 := by
    have := Int.lt_floor_add_one (p / 100 * 65535)
    push_cast at this ⊢
    linarith
  have hcast : ((zoomWire p : ℕ) : ℚ) = (z : ℚ) := by
    simp only [zoomWire, ← hzdef]
    exact_mod_cast congrArg (fun n : ℤ => (n : ℚ)) (Int.toNat_of_nonneg hz0)
  have hrecomb : (zoomWire p >>> 8) * 256 + (zoomWire p &&& 0xff)
      = zoomWire p := bytes_recombine _
  -- the raw (unrounded) decoded percentage
  have hxle : ((zoomWire p : ℕ) : ℚ) / 65535 * 100 ≤ p := by
    rw [hcast]
    rw [div_mul_eq_mul_div, div_le_iff₀ (by norm_num : (0:ℚ) < 65535)]
    have : (z : ℚ) * 100 ≤ (p / 100 * 65535) * 100 := by linarith
    calc (z : ℚ) * 100 ≤ (p / 100 * 65535) * 100 := this
      _ = p * 65535 := by ring
  have hxgt : p - 100/65535 < ((zoomWire p : ℕ) : ℚ) / 65535 * 100 := by
    rw [hcast]
    rw [div_mul_eq_mul_div, lt_div_iff₀ (by norm_num : (0:ℚ) < 65535)]
    have h1' : (p / 100 * 65535) * 100 < ((z : ℚ) + 1) * 100 := by linarith
    have h2' : (p - 100/65535) * 65535 = (p / 100 * 65535) * 100 - 100 := by
      ring
    linarith
  refine ⟨?_, ?_, ?_⟩
  · simp only [set_zoom]
    rw [if_neg hnot]
  · refine ⟨pround (((zoomWire p : ℕ) : ℚ) / 65535 * 100) 2, ?_, ?_⟩
    · rw [parse_command_extended 1 0 93 _ _ (by norm_num), parseExtended_0x5D,
        hrecomb]
    · have hq : |pround (((zoomWire p : ℕ) : ℚ) / 65535 * 100) 2
          - ((zoomWire p : ℕ) : ℚ) / 65535 * 100| ≤ 1/200 := by
        calc |pround (((zoomWire p : ℕ) : ℚ) / 65535 * 100) 2
              - ((zoomWire p : ℕ) : ℚ) / 65535 * 100|
            ≤ 1 / (2 * 10 ^ 2) := abs_pround_sub_le _ 2
          _ = 1/200 := by norm_num
      have hxp : |((zoomWire p : ℕ) : ℚ) / 65535 * 100 - p| ≤ 100/65535 := by
        rw [abs_le]
        constructor <;> linarith
      calc |pround (((zoomWire p : ℕ) : ℚ) / 65535 * 100) 2 - p|
          ≤ |pround (((zoomWire p : ℕ) : ℚ) / 65535 * 100) 2
              - ((zoomWire p : ℕ) : ℚ) / 65535 * 100|
            + |((zoomWire p : ℕ) : ℚ) / 65535 * 100 - p| := abs_sub_le _ _ _
        _ ≤ 1/200 + 100/65535 := by linarith
  · refine ⟨pround (((zoomWire p : ℕ) : ℚ) / 65535) 2 * 100, ?_, ?_⟩
    · have hc0 : pround (((0:ℕ) : ℚ) / 255) 4 * 100 = 0 := by
        norm_num [pround_zero]
      rw [parse_command_extended 1 0 79 _ _ (by norm_num), parseExtended_0x4F,
        hrecomb, hc0]
    · have hq : |pround (((zoomWire p : ℕ) : ℚ) / 65535) 2 * 100
          - ((zoomWire p : ℕ) : ℚ) / 65535 * 100| ≤ 1/2 := by
        have hmul : pround (((zoomWire p : ℕ) : ℚ) / 65535) 2 * 100
            - ((zoomWire p : ℕ) : ℚ) / 65535 * 100
            = (pround (((zoomWire p : ℕ) : ℚ) / 65535) 2
                - ((zoomWire p : ℕ) : ℚ) / 65535) * 100 := by
          ring
        rw [hmul, abs_mul, abs_of_nonneg (by norm_num : (0:ℚ) ≤ 100)]
        calc |pround (((zoomWire p : ℕ) : ℚ) / 65535) 2
              - ((zoomWire p : ℕ) : ℚ) / 65535| * 100
            ≤ (1 / (2 * 10 ^ 2)) * 100 := by
              apply mul_le_mul_of_nonneg_right (abs_pround_sub_le _ 2)
                (by norm_num)
          _ = 1/2 := by norm_num
      have hxp : |((zoomWire p : ℕ) : ℚ) / 65535 * 100 - p| ≤ 100/65535 := by
        rw [abs_le]
        constructor <;> linarith
      calc |pround (((zoomWire p : ℕ) : ℚ) / 65535) 2 * 100 - p|
          ≤ |pround (((zoomWire p : ℕ) : ℚ) / 65535) 2 * 100
              - ((zoomWire p : ℕ) : ℚ) / 65535 * 100|
            + |((zoomWire p : ℕ) : ℚ) / 65535 * 100 - p| := abs_sub_le _ _ _
        _ ≤ 1/2 + 100/65535 := by linarith

/-- Witness for C7 (amended) at `p = 50`. -/
theorem pelco_C7_amended_witness :
    set_zoom 1 50 = some (command 1 0 0x4F (zoomWire 50 >>> 8)
        (zoomWire 50 &&& 0xff)) ∧
    (∃ q : ℚ, parse (command 1 0 0x5D (zoomWire 50 >>> 8)
          (zoomWire 50 &&& 0xff)) = PMessage.okNum q ∧
        |q - 50| ≤ 1/200 + 100/65535) ∧
    (∃ q : ℚ, parse (command 1 0 0x4F (zoomWire 50 >>> 8)
          (zoomWire 50 &&& 0xff)) = PMessage.okExtended 1 0 0x4F q ∧
        |q - 50| ≤ 1/2 + 100/65535) :=
  pelco_C7_amended 50 (by norm_num) (by norm_num)

/-! ### C5: spec-side characterisation of the standard-command branch

These three definitions follow the WORDS of the spec ("direction
letters are derived bitwise from c1 ... and c2 ...; pan/tilt speed =
data/64 rounded to 4 decimals" when the corresponding direction bit is
set); they are compared against `parseStandard`, which was translated
from the code. -/

def stdLetters (c1 c2 : ℕ) : String :=
  (if c1 &&& 4 ≠ 0 then "C" else if c1 &&& 2 ≠ 0 then "O" else "")
  ++ (if c1 &&& 1 ≠ 0 then "N" else if c2 &&& 128 ≠ 0 then "F" else "")
  ++ (if c2 &&& 64 ≠ 0 then "W" else if c2 &&& 32 ≠ 0 then "T" else "")
  ++ (if c2 &&& 16 ≠ 0 then "D" else "")
  ++ (if c2 &&& 8 ≠ 0 then "U" else "")
  ++ (if c2 &&& 4 ≠ 0 then "L" else "")
  ++ (if c2 &&& 2 ≠ 0 then "R" else "")

def specTiltSpeed (c2 d2 : ℕ) : ℚ :=
  if c2 &&& 16 ≠ 0 ∨ c2 &&& 8 ≠ 0 then pround ((d2 : ℚ) / 64) 4 else 0

def specPanSpeed (c2 d1 : ℕ) : ℚ :=
  if c2 &&& 4 ≠ 0 ∨ c2 &&& 2 ≠ 0 then pround ((d1 : ℚ) / 64) 4 else 0

theorem ite_append_string (c : Prop) [Decidable c] (s l : String) :
    (if c then s ++ l else s) = s ++ (if c then l else "") := by
  by_cases h : c <;> simp [h]

theorem ite_append_append_string (c : Prop) [Decidable c] (s l x : String) :
    (if c then s ++ l else s ++ x) = s ++ (if c then l else x) := by
  by_cases h : c <;> simp [h]

theorem cmdStringSeq_eq (c1 c2 : ℕ) :
    cmdStringSeq c1 c2 = stdLetters c1 c2 := by
  simp only [cmdStringSeq, stdLetters, ite_append_string,
    ite_append_append_string, String.empty_append]

theorem parseStandard_eq (addr c1 c2 d1 d2 : ℕ) :
    parseStandard addr c1 c2 d1 d2 =
      if 1 < specTiltSpeed c2 d2 then
        PMessage.errResult ERR_BAD_TILT (some (specTiltSpeed c2 d2))
      else if 1 < specPanSpeed c2 d1 then
        PMessage.errResult ERR_BAD_PAN (some (specPanSpeed c2 d1))
      else PMessage.okStandard addr (stdLetters c1 c2) (specPanSpeed c2 d1)
        (specTiltSpeed c2 d2) := by
  simp only [parseStandard, cmdStringSeq_eq, specTiltSpeed, specPanSpeed]
  by_cases hD : c2 &&& 16 ≠ 0 <;> by_cases hU : c2 &&& 8 ≠ 0 <;>
    by_cases hL : c2 &&& 4 ≠ 0 <;> by_cases hR : c2 &&& 2 ≠ 0 <;>
      simp [hD, hU, hL, hR]

/-- C5: for every valid packet whose fields satisfy `c1 ≤ 4`, `c2`
even and not all of `c1,c2,d1,d2` zero, `_parse` produces a Standard
message with the direction letters derived bitwise from `c1`/`c2` and
`pan_speed = round(d1/64, 4)` / `tilt_speed = round(d2/64, 4)` exactly
when the corresponding direction bits are set, and returns
`Err(BadTilt)` / `Err(BadPan)` carrying the offending value whenever
the normalised speed exceeds 1 (tilt checked first); in particular
`encode(1, 0, 0x02, 32, 0) = FF 01 00 02 20 00 23` and decoding those
bytes yields `Standard{addr 1, cmd "R", pan 0.5, tilt 0}`. -/
theorem pelco_C5_standard (addr c1 c2 d1 d2 : ℕ)
    (ha : addr < 256) (hb1 : c1 < 256) (hb2 : c2 < 256) (hb3 : d1 < 256)
    (hb4 : d2 < 256) (hc1 : c1 ≤ 4) (hc2 : c2 % 2 = 0)
    (hnz : ¬(c1 = 0 ∧ c2 = 0 ∧ d1 = 0 ∧ d2 = 0)) :
    (1 < specTiltSpeed c2 d2 →
      parse (command addr c1 c2 d1 d2)
        = PMessage.errResult ERR_BAD_TILT (some (specTiltSpeed c2 d2))) ∧
    (specTiltSpeed c2 d2 ≤ 1 → 1 < specPanSpeed c2 d1 →
      parse (command addr c1 c2 d1 d2)
        = PMessage.errResult ERR_BAD_PAN (some (specPanSpeed c2 d1))) ∧
    (specTiltSpeed c2 d2 ≤ 1 → specPanSpeed c2 d1 ≤ 1 →
      parse (command addr c1 c2 d1 d2)
        = PMessage.okStandard addr (stdLetters c1 c2) (specPanSpeed c2 d1)
            (specTiltSpeed c2 d2)) ∧
    command 1 0 2 32 0 = [255, 1, 0, 2, 32, 0, 35] ∧
    parse [255, 1, 0, 2, 32, 0, 35] = PMessage.okStandard 1 "R" (1/2) 0 := by
  have hps := parse_command_standard addr c1 c2 d1 d2 hc1 hc2 hnz
  rw [hps, parseStandard_eq]
  refine ⟨?_, ?_, ?_, by decide, parse_std_example⟩
  · intro h
    rw [if_pos h]
  · intro h1' h2'
    rw [if_neg (not_lt.mpr h1'), if_pos h2']
  · intro h1' h2'
    rw [if_neg (not_lt.mpr h1'), if_neg (not_lt.mpr h2')]

/-- Witness for C5 at the spec's example packet
`(addr, c1, c2, d1, d2) = (1, 0, 0x02, 32, 0)`. -/
theorem pelco_C5_standard_witness :
    (1 < specTiltSpeed 2 0 →
      parse (command 1 0 2 32 0)
        = PMessage.errResult ERR_BAD_TILT (some (specTiltSpeed 2 0))) ∧
    (specTiltSpeed 2 0 ≤ 1 → 1 < specPanSpeed 2 32 →
      parse (command 1 0 2 32 0)
        = PMessage.errResult ERR_BAD_PAN (some (specPanSpeed 2 32))) ∧
    (specTiltSpeed 2 0 ≤ 1 → specPanSpeed 2 32 ≤ 1 →
      parse (command 1 0 2 32 0)
        = PMessage.okStandard 1 (stdLetters 0 2) (specPanSpeed 2 32)
            (specTiltSpeed 2 0)) ∧
    command 1 0 2 32 0 = [255, 1, 0, 2, 32, 0, 35] ∧
    parse [255, 1, 0, 2, 32, 0, 35] = PMessage.okStandard 1 "R" (1/2) 0 :=
  pelco_C5_standard 1 0 2 32 0 (by decide) (by decide) (by decide) (by decide)
    (by decide) (by decide) (by decide) (by simp)

/-! ### C8 -/

/-- C8 counterexample: calling the preset operation with the
out-of-range id 0 raises a `ValueError` — exception-based control flow
crosses the public engine boundary, contradicting the claim that such
inputs are rejected as result values. -/
theorem pelco_C8_counterexample :
    set_preset 1 0
      = CallOutcome.raisesValueError
          "Preset values must be in range 1 to 255" := by
  rfl

/-- C8 amended: the preset operations raise `ValueError` (exception-
based control flow) for ids outside `[1,255]` and write the encoded
packet otherwise; only the auxiliary operations reject out-of-range
ids as an error result value (`ERR_INVALID_INPUT_PARAM`, code 9). -/
theorem pelco_C8_amended (presetId auxId : ℤ) :
    ((presetId < 1 ∨ 255 < presetId) →
      set_preset 1 presetId
        = CallOutcome.raisesValueError
            "Preset values must be in range 1 to 255") ∧
    (1 ≤ presetId → presetId ≤ 255 →
      set_preset 1 presetId
        = CallOutcome.writesPacket (command 1 0 0x03 0 presetId.toNat)) ∧
    ((auxId < 0 ∨ 255 < auxId) →
      set_auxiliary 1 auxId = CallOutcome.returnsError 9) ∧
    (0 ≤ auxId → auxId ≤ 255 →
      set_auxiliary 1 auxId
        = CallOutcome.writesPacket (command 1 0 0x09 0 auxId.toNat)) := by
  refine ⟨?_, ?_, ?_, ?_⟩
  · intro h
    simp only [set_preset]
    rw [if_pos h]
  · intro h1 h2
    simp only [set_preset]
    rw [if_neg (by omega)]
  · intro h
    simp only [set_auxiliary]
    rw [if_pos h]
  · intro h1 h2
    simp only [set_auxiliary]
    rw [if_neg (by omega)]

/-- Witness for C8 (amended) at `presetId = auxId = 300`: the preset
call raises, the auxiliary call returns an error value. -/
theorem pelco_C8_amended_witness :
    set_preset 1 300
      = CallOutcome.raisesValueError
          "Preset values must be in range 1 to 255" ∧
    set_auxiliary 1 300 = CallOutcome.returnsError 9 :=
  ⟨(pelco_C8_amended 300 300).1 (by norm_num),
   (pelco_C8_amended 300 300).2.2.1 (by norm_num)⟩

/-! ### C4 -/

theorem parseExtended_0x4B (addr c1 d1 d2 : ℕ) :
    parseExtended addr c1 75 d1 d2
      = extData addr c1 75 (((d1 * 256 + d2 : ℕ) : ℚ) / 100) := by
  simp only [parseExtended]
  rw [if_neg (by norm_num), if_neg (by norm_num), if_neg (by norm_num),
    if_neg (by norm_num), if_pos (by trivial)]

/-- `ingest` in a non-idle mode with a buffer of at most 128 bytes:
there the negative-start slice of line 322 keeps the whole buffer, and
the call reduces to the scanning loop plus the final garbage trim.
(For `128 < len < 256` the slice keeps only the last `256 - len`
bytes, so this reduction would be wrong.) -/
theorem ingest_eq (buffer data : List ℕ)
    (h : (buffer ++ data).length ≤ 128) :
    ingest false buffer data
      = ((ingestScanF (buffer ++ data).length (buffer ++ data)).1,
         (ingestScanF (buffer ++ data).length (buffer ++ data)).2.dropWhile
           (fun x => x != 255)) := by
  simp only [ingest, Bool.false_eq_true, if_false, pySliceFrom]
  rw [if_neg (by omega)]
  rw [show (buffer ++ data).length
        - (-(((buffer ++ data).length : ℤ) - 256)).toNat = 0 from by omega,
    List.drop_zero]

/-- The divergence regime of `ingest`'s truncation: for a buffer of
129..255 bytes, the slice `buffer[len - 256:]` has a negative start
and retains only the last `256 - len` bytes — fewer than the buffer
held — rather than keeping everything. -/
theorem pySliceFrom_mid (l : List ℕ) (h1 : 128 ≤ l.length)
    (h2 : l.length < 256) :
    (pySliceFrom l ((l.length : ℤ) - 256)).length = 256 - l.length := by
  unfold pySliceFrom
  rw [if_neg (by omega), List.length_drop]
  omega

theorem pelco_C4_helper_trace :
    (ingest false []
        ([255,255,0,0,0,0] ++ ([255,1,0,75,255,0,75]
          ++ ([0,0,0,75] ++ [255,1,0,2,32,0,35])))).1
      = [PMessage.okStop 255, PMessage.okAlternate 0 75 0 0 0,
          PMessage.okStandard 1 "R" (1/2) 0] := by
  rw [show ([255,255,0,0,0,0] ++ ([255,1,0,75,255,0,75]
        ++ ([0,0,0,75] ++ [255,1,0,2,32,0,35])) : List ℕ)
      = [255,255,0,0,0,0,255,1,0,75,255,0,75,0,0,0,75,255,1,0,2,32,0,35]
      from rfl]
  rw [ingest_eq [] _ (by decide)]
  simp only [List.nil_append]
  rw [show ([255,255,0,0,0,0,255,1,0,75,255,0,75,0,0,0,75,255,1,0,2,32,0,35] :
      List ℕ).length = 23 + 1 from rfl]
  rw [ingestScanF_step 23 _ 0 (by decide)]
  rw [show (([255,255,0,0,0,0,255,1,0,75,255,0,75,0,0,0,75,255,1,0,2,32,0,35] :
      List ℕ).drop 0).take 7 = [255,255,0,0,0,0,255] from rfl,
    parse_stop_example]
  rw [show ([255,255,0,0,0,0,255,1,0,75,255,0,75,0,0,0,75,255,1,0,2,32,0,35] :
      List ℕ).drop (0 + 7)
      = [1,0,75,255,0,75,0,0,0,75,255,1,0,2,32,0,35] from rfl]
  rw [show (23:ℕ) = 22 + 1 from rfl]
  rw [ingestScanF_step 22 _ 3 (by decide)]
  rw [show (([1,0,75,255,0,75,0,0,0,75,255,1,0,2,32,0,35] :
      List ℕ).drop 3).take 7 = [255,0,75,0,0,0,75] from rfl]
  rw [show parse [255,0,75,0,0,0,75] = PMessage.okAlternate 0 75 0 0 0
      from rfl]
  rw [show ([1,0,75,255,0,75,0,0,0,75,255,1,0,2,32,0,35] : List ℕ).drop (3 + 7)
      = [255,1,0,2,32,0,35] from rfl]
  rw [show (22:ℕ) = 21 + 1 from rfl]
  rw [ingestScanF_step 21 _ 0 (by decide)]
  rw [show (([255,1,0,2,32,0,35] : List ℕ).drop 0).take 7
      = [255,1,0,2,32,0,35] from rfl, parse_std_example]
  rw [show ([255,1,0,2,32,0,35] : List ℕ).drop (0 + 7) = [] from rfl,
    ingestScanF_nil]

/-- C4 counterexample: the buffer
`g1 ++ p1 ++ g2 ++ p2` with `g1 = FF FF 00 00 00 00`,
`p1 = FF 01 00 4B FF 00 4B` (a valid SET_PAN packet that parses
successfully), `g2 = 00 00 00 4B` and `p2 = FF 01 00 02 20 00 23`
satisfies all the claim's hypotheses — both packets are 7-byte
sync+checksum-valid packets that parse successfully, and neither
garbage segment contains any window satisfying the sync-plus-checksum
equation — yet a single `ingest` call emits THREE successfully parsed
messages, not two: windows that straddle the garbage/packet boundaries
also satisfy the equation, and the resynchronisation loop consumes
them first. -/
theorem pelco_C4_counterexample :
    ([255,1,0,75,255,0,75] : List ℕ).length = 7 ∧
    windowOk [255,1,0,75,255,0,75] 0 = true ∧
    (parse [255,1,0,75,255,0,75]).isSuccess = true ∧
    ([255,1,0,2,32,0,35] : List ℕ).length = 7 ∧
    windowOk [255,1,0,2,32,0,35] 0 = true ∧
    (parse [255,1,0,2,32,0,35]).isSuccess = true ∧
    (∀ i, windowOk [255,255,0,0,0,0] i = false) ∧
    (∀ i, windowOk [0,0,0,75] i = false) ∧
    ((ingest false []
        ([255,255,0,0,0,0] ++ ([255,1,0,75,255,0,75]
          ++ ([0,0,0,75] ++ [255,1,0,2,32,0,35])))).1.filter
      PMessage.isSuccess).length = 3 := by
  have hp1 : parse [255,1,0,75,255,0,75]
      = extData 1 0 75 (((255 * 256 + 0 : ℕ) : ℚ) / 100) := by
    rw [show ([255,1,0,75,255,0,75] : List ℕ) = command 1 0 75 255 0
        from by decide,
      parse_command_extended 1 0 75 255 0 (by norm_num), parseExtended_0x4B]
  refine ⟨rfl, by decide, ?_, rfl, by decide, ?_, ?_, ?_, ?_⟩
  · rw [hp1]
    rfl
  · rw [parse_std_example]
    rfl
  · intro i
    exact windowOk_false_of_lt
      (by simp only [List.length_cons, List.length_nil]; omega)
  · intro i
    exact windowOk_false_of_lt
      (by simp only [List.length_cons, List.length_nil]; omega)
  · rw [pelco_C4_helper_trace]
    rfl

/-- C4 amended: the resynchronisation guarantee holds under two
strengthened hypotheses forced by the code.  First, the ONLY windows
of the whole combined buffer satisfying the sync-plus-checksum
equation are the two packets themselves (ruling out windows straddling
garbage/packet boundaries, which the original claim's hypothesis on
the garbage segments alone does not).  Second, the buffer holds at
most 128 bytes — not merely "fits the 256-byte bound": for buffers of
129..255 bytes the slice `buffer[len - 256:]` of `ingest` (line 322)
has a negative start and keeps only the last `256 - len` bytes, which
can discard the packets entirely.  Provided also that both packets
parse successfully, a single `ingest` call emits exactly the two
packets' messages, in packet order.  The claim's concrete 9-byte
example holds as stated: the leading two garbage bytes are discarded
and exactly one Standard message is emitted. -/
theorem pelco_C4_amended (g1 p1 g2 p2 : List ℕ)
    (hp1 : p1.length = 7) (hp2 : p2.length = 7)
    (hlen : (g1 ++ (p1 ++ (g2 ++ p2))).length ≤ 128)
    (honly : ∀ i, i + 7 ≤ (g1 ++ (p1 ++ (g2 ++ p2))).length →
      (windowOk (g1 ++ (p1 ++ (g2 ++ p2))) i = true ↔
        (i = g1.length ∨ i = g1.length + 7 + g2.length)))
    (hs1 : (parse p1).isSuccess = true)
    (hs2 : (parse p2).isSuccess = true) :
    (ingest false [] (g1 ++ (p1 ++ (g2 ++ p2)))).1 = [parse p1, parse p2] ∧
    ((ingest false [] (g1 ++ (p1 ++ (g2 ++ p2)))).1.filter
        PMessage.isSuccess).length = 2 ∧
    ingest false [] [0, 1, 255, 1, 0, 2, 32, 0, 35]
      = ([PMessage.okStandard 1 "R" (1/2) 0], []) := by
  have hbuflen : (g1 ++ (p1 ++ (g2 ++ p2))).length
      = g1.length + 7 + g2.length + 7 := by
    simp only [List.length_append, hp1, hp2]
    omega
  -- the two matching windows
  have hwa : windowOk (g1 ++ (p1 ++ (g2 ++ p2))) g1.length = true :=
    (honly g1.length (by omega)).mpr (Or.inl rfl)
  have hwb : windowOk (g1 ++ (p1 ++ (g2 ++ p2)))
      (g1.length + 7 + g2.length) = true :=
    (honly _ (by omega)).mpr (Or.inr rfl)
  have hbefore : ∀ k, k < g1.length →
      windowOk (g1 ++ (p1 ++ (g2 ++ p2))) k = false := by
    intro k hk
    cases hcase : windowOk (g1 ++ (p1 ++ (g2 ++ p2))) k with
    | false => rfl
    | true =>
      exfalso
      rcases (honly k (by omega)).mp hcase with h | h <;> omega
  have hfind1 : findMatchIdx (g1 ++ (p1 ++ (g2 ++ p2))) = some g1.length :=
    findMatchIdx_eq_some _ _ hwa hbefore
  -- packet extraction and the post-consumption buffer
  have hdrop_a : (g1 ++ (p1 ++ (g2 ++ p2))).drop g1.length
      = p1 ++ (g2 ++ p2) := List.drop_left _ _
  have hw1 : ((g1 ++ (p1 ++ (g2 ++ p2))).drop g1.length).take 7 = p1 := by
    rw [hdrop_a, ← hp1, List.take_left]
  have hdrop_a7 : (g1 ++ (p1 ++ (g2 ++ p2))).drop (g1.length + 7)
      = g2 ++ p2 := by
    rw [show g1 ++ (p1 ++ (g2 ++ p2)) = (g1 ++ p1) ++ (g2 ++ p2) from by
        simp [List.append_assoc],
      show g1.length + 7 = (g1 ++ p1).length from by
        simp [List.length_append, hp1]]
    exact List.drop_left _ _
  -- matches within the remaining buffer
  have hrest_w : ∀ i, windowOk (g2 ++ p2) i
      = windowOk (g1 ++ (p1 ++ (g2 ++ p2))) (g1.length + 7 + i) := by
    intro i
    conv_lhs => rw [← hdrop_a7]
    rw [windowOk_drop]
  have hwg2 : windowOk (g2 ++ p2) g2.length = true := by
    rw [hrest_w]
    exact hwb
  have hrest_before : ∀ k, k < g2.length →
      windowOk (g2 ++ p2) k = false := by
    intro k hk
    rw [hrest_w]
    cases hcase : windowOk (g1 ++ (p1 ++ (g2 ++ p2))) (g1.length + 7 + k) with
    | false => rfl
    | true =>
      exfalso
      rcases (honly _ (by omega)).mp hcase with h | h <;> omega
  have hfind2 : findMatchIdx (g2 ++ p2) = some g2.length :=
    findMatchIdx_eq_some _ _ hwg2 hrest_before
  have hw2 : ((g2 ++ p2).drop g2.length).take 7 = p2 := by
    rw [List.drop_left, ← hp2, List.take_length]
  have hdrop2 : (g2 ++ p2).drop (g2.length + 7) = [] := by
    rw [show g2.length + 7 = (g2 ++ p2).length from by
        simp [List.length_append, hp2]]
    exact List.drop_length _
  -- run the scanning loop
  have hscan : ingestScanF (g1 ++ (p1 ++ (g2 ++ p2))).length
      (g1 ++ (p1 ++ (g2 ++ p2))) = ([parse p1, parse p2], []) := by
    obtain ⟨m, hm⟩ : ∃ m, (g1 ++ (p1 ++ (g2 ++ p2))).length = m + 1 :=
      ⟨(g1 ++ (p1 ++ (g2 ++ p2))).length - 1, by omega⟩
    obtain ⟨n, hn⟩ : ∃ n, m = n + 1 := ⟨m - 1, by omega⟩
    rw [hm, ingestScanF_step m _ _ hfind1, hw1, hdrop_a7, hn,
      ingestScanF_step n _ _ hfind2, hw2, hdrop2, ingestScanF_nil]
  have hmain : ingest false [] (g1 ++ (p1 ++ (g2 ++ p2)))
      = ([parse p1, parse p2], []) := by
    rw [ingest_eq [] _ (by simpa using hlen)]
    simp only [List.nil_append]
    rw [hscan]
    rfl
  refine ⟨by rw [hmain], ?_, ?_⟩
  · rw [hmain]
    simp [List.filter_cons, hs1, hs2]
  · -- the concrete 9-byte example
    rw [ingest_eq [] _ (by decide)]
    simp only [List.nil_append]
    rw [show ([0, 1, 255, 1, 0, 2, 32, 0, 35] : List ℕ).length = 8 + 1
        from rfl]
    rw [ingestScanF_step 8 _ 2 (by decide)]
    rw [show (([0, 1, 255, 1, 0, 2, 32, 0, 35] : List ℕ).drop 2).take 7
        = [255, 1, 0, 2, 32, 0, 35] from rfl, parse_std_example]
    rw [show ([0, 1, 255, 1, 0, 2, 32, 0, 35] : List ℕ).drop (2 + 7) = []
        from rfl, ingestScanF_nil]
    rfl

/-- Witness for C4 (amended) with `g1 = g2 = 00 01` and
`p1 = p2 = FF 01 00 02 20 00 23`. -/
theorem pelco_C4_amended_witness :
    (ingest false [] ([0, 1] ++ ([255, 1, 0, 2, 32, 0, 35]
        ++ ([0, 1] ++ [255, 1, 0, 2, 32, 0, 35])))).1
      = [parse [255, 1, 0, 2, 32, 0, 35], parse [255, 1, 0, 2, 32, 0, 35]] ∧
    ((ingest false [] ([0, 1] ++ ([255, 1, 0, 2, 32, 0, 35]
        ++ ([0, 1] ++ [255, 1, 0, 2, 32, 0, 35])))).1.filter
      PMessage.isSuccess).length = 2 ∧
    ingest false [] [0, 1, 255, 1, 0, 2, 32, 0, 35]
      = ([PMessage.okStandard 1 "R" (1/2) 0], []) :=
  pelco_C4_amended [0, 1] [255, 1, 0, 2, 32, 0, 35] [0, 1]
    [255, 1, 0, 2, 32, 0, 35] rfl rfl (by decide)
    (by intro i hi
        have hlen18 : (([0, 1] ++ ([255, 1, 0, 2, 32, 0, 35]
            ++ ([0, 1] ++ [255, 1, 0, 2, 32, 0, 35]))) : List ℕ).length = 18 :=
          rfl
        have hi2 : i < 12 := by omega
        interval_cases i <;> decide)
    (by rw [parse_std_example]; rfl)
    (by rw [parse_std_example]; rfl)

end Pelco
